import Mathlib

/-!
Shallow embedding of `cpubench1A` (`src/main.go`) and proofs of the
specification claims about it.

The program is a CPU micro-benchmark.  `runBench` spawns a pool of workers,
runs an initialization barrier, floods a work queue with `OpStep` commands
until a deadline timer fires, shuts the workers down with `OpExit`, sums the
per-worker counts and reports a throughput.  `stdBench` re-invokes the
executable as a subprocess for repeated iterations.  `measureFreq` times a
fixed dependent-instruction loop.  `displayCPUVendorName` queries CPU info,
discards the error and indexes the first element.

Concurrency is embedded by the orchestrator's event trace: the scheduler
nondeterminism of the `select` in the benchmark loop is a parameter `k`, the
number of iterations whose `default` branch ran before the stop signal was
observed; the values read from the result channel at shutdown are a
parameter `counts`.  Go `float64` arithmetic is embedded as exact rationals.
-/

namespace Cpubench

/-- The worker command tokens of the program (`WorkerOp` in the source). -/
inductive WorkerOp
  | OpInit
  | OpStep
  | OpExit
deriving DecidableEq, Repr

/-- Events of the orchestrator trace of `runBench` (src/main.go lines 79-159). -/
inductive Ev
  | spawnWorker (i : Nat)
  | sendInit (i : Nat)
  | recvReady (i : Nat)
  | runGC
  | recordStart
  | armTimer (d : Nat)
  | pollDeadline (fired : Bool)
  | enqueueStep
  | enqueueExit (i : Nat)
  | recvCount (c : Nat)
  | recordEnd
deriving DecidableEq, Repr

namespace Ev

def isReady : Ev → Bool
  | .recvReady _ => true
  | _ => false

def isStep : Ev → Bool
  | .enqueueStep => true
  | _ => false

def isPoll : Ev → Bool
  | .pollDeadline _ => true
  | _ => false

def isStopPoll : Ev → Bool
  | .pollDeadline fired => fired
  | _ => false

def isExitCmd : Ev → Bool
  | .enqueueExit _ => true
  | _ => false

def isStartEv : Ev → Bool
  | .recordStart => true
  | _ => false

def isEndEv : Ev → Bool
  | .recordEnd => true
  | _ => false

def isRecvCount : Ev → Bool
  | .recvCount _ => true
  | _ => false

end Ev

/-- Worker spawning phase of `runBench` (lines 91-97): for each `i < W`,
spawn worker `i` and push one `OpInit` into the init queue. -/
def initPhase (W : Nat) : List Ev :=
  (List.range W).flatMap (fun i => [Ev.spawnWorker i, Ev.sendInit i])

/-- Initialization barrier of `runBench` (lines 100-102): read one readiness
signal from the output channel per spawned worker. -/
def barrierPhase (W : Nat) : List Ev :=
  (List.range W).map Ev.recvReady

/-- The benchmark loop of `runBench` (lines 118-129).  Each iteration is a
non-blocking `select`: if the stop channel is ready the loop breaks
(`pollDeadline true`), otherwise the `default` branch enqueues `W*16`
`OpStep` commands.  The parameter `k` is the number of iterations that take
the `default` branch before the stop signal becomes observable. -/
def benchLoop (W : Nat) : Nat → List Ev
  | 0 => [Ev.pollDeadline true]
  | Nat.succ k =>
      (Ev.pollDeadline false :: List.replicate (W * 16) Ev.enqueueStep) ++ benchLoop W k

/-- Shutdown phase of `runBench` (lines 131-139): one `OpExit` per worker,
then read one final count per worker from the output channel, then record
the end timestamp. -/
def shutdownPhase (W : Nat) (counts : List Nat) : List Ev :=
  ((List.range W).map Ev.enqueueExit ++ counts.map Ev.recvCount) ++ [Ev.recordEnd]

/-- Full orchestrator trace of `runBench` (lines 79-159): spawn and init,
barrier, two forced GCs, start timestamp, deadline timer armed for `D`
seconds, benchmark loop, shutdown and aggregation. -/
def runBenchTrace (W D k : Nat) (counts : List Nat) : List Ev :=
  ((initPhase W ++ barrierPhase W ++
    [Ev.runGC, Ev.runGC, Ev.recordStart, Ev.armTimer D]) ++ benchLoop W k) ++
    shutdownPhase W counts

/-- Aggregation of `runBench` (lines 135-138): `nb := 0`, then `nb += <-output`
once per worker. -/
def runBenchNb (counts : List Nat) : Nat :=
  counts.foldl (fun nb c => nb + c) 0

/-- Throughput computation of `runBench` (lines 143-144):
`res := float64(nb) * 1000000000.0 / ns`, embedded over exact rationals. -/
def throughput (nb : Nat) (ns : ℚ) : ℚ :=
  (nb : ℚ) * 1000000000 / ns

/-- The throughput value reported by `runBench` given the per-worker final
counts and the elapsed nanoseconds. -/
def runBenchRes (counts : List Nat) (ns : ℚ) : ℚ :=
  throughput (runBenchNb counts) ns

/-! ### CPU information, report printing and the result file -/

/-- The fields of `cpu.InfoStat` used by the program. -/
structure InfoStat where
  VendorID : String
  ModelName : String
deriving DecidableEq, Repr

/-- `getCPUInfo` (src/main.go lines 233-239): on error returns the error and
a nil slice, otherwise the queried slice unchanged.  The OS-level outcome of
`cpu.InfoWithContext` is the parameter. -/
def getCPUInfo (osq : Except String (List InfoStat)) : Except String (List InfoStat) :=
  match osq with
  | .error e => .error e
  | .ok l => .ok l

/-- `displayCPUVendorName` (src/main.go lines 327-330): the error returned by
`getCPUInfo` is discarded (`cpuinfo, _ := ...`; on error the Go slice is
`nil`, that is, empty), and `cpuinfo[0]` is indexed unconditionally.  The
out-of-bounds access on an empty slice is a runtime panic, embedded as
`none`. -/
def displayCPUVendorName (osq : Except String (List InfoStat)) : Option String :=
  let cpuinfo : List InfoStat :=
    match getCPUInfo osq with
    | .error _ => []
    | .ok l => l
  (cpuinfo[0]?).map InfoStat.ModelName

/-- A line printed on standard output by `runBench` in non-debug mode. -/
inductive OutLine
  | vendor (s : String)
  | value (r : ℚ)
deriving DecidableEq, Repr

/-- The report a completed `runBench` produces: the printed lines, whether a
result-file write failure was logged, and the returned error (`none` is Go's
`nil`). -/
structure BenchReport where
  printed : List OutLine
  loggedWriteFailure : Bool
  ret : Option String
deriving DecidableEq, Repr

/-- The tail of `runBench` after the measurement (src/main.go lines 145-158),
given the computed result `res`: in non-debug mode print the CPU model name
(a panic there, from a failed or empty CPU query, is embedded as `none`) and
the throughput; then, when a result file is configured, attempt the append
and merely log a failure (`AppendResult`'s outcome is the parameter
`writeErr`); finally return `nil` unconditionally. -/
def runBenchFinish (debug : Bool) (osq : Except String (List InfoStat)) (res : ℚ)
    (resFile : Option String) (writeErr : Option String) : Option BenchReport :=
  let printed : Option (List OutLine) :=
    if debug then some []
    else
      match displayCPUVendorName osq with
      | none => none
      | some v => some [OutLine.vendor v, OutLine.value res]
  match printed with
  | none => none
  | some lines =>
      some { printed := lines
             loggedWriteFailure := resFile.isSome && writeErr.isSome
             ret := none }

/-! ### The repeated benchmark (`stdBench` and `spawnBench`) -/

/-- `displayCPU` (src/main.go lines 242-297): propagates a CPU-info query
failure, then a physical-core count failure, then a logical-thread count
failure; NUMA-topology read failures are silently skipped; otherwise returns
`nil`. -/
def displayCPU (osq : Except String (List InfoStat)) (ncErr ntErr : Option String) :
    Option String :=
  match getCPUInfo osq with
  | .error e => some e
  | .ok _ =>
      match ncErr with
      | some e => some e
      | none => ntErr

/-- `spawnBench` (src/main.go lines 205-231), with the outcome of
`os.Executable` and of the blocking `cmd.Run` as parameters: an
executable-path lookup failure returns `nil`; a subprocess-run failure is
returned to the caller unchanged; success returns `nil`. -/
def spawnBench (execErr : Option String) (runErr : Option String) : Option String :=
  match execErr with
  | some _ => none
  | none => runErr

/-- One `for i := 0; i < nb; i++ { if err := spawnBench(...) ; err != nil { return err } }`
loop of `stdBench` (src/main.go lines 182-196), over the sequence of
`spawnBench` outcomes for its iterations: the result is the first error, if
any, paired with the number of iterations actually performed. -/
def benchSeq : List (Option String) → Option String × Nat
  | [] => (none, 0)
  | o :: rest =>
      match o with
      | some e => (some e, 1)
      | none =>
          let p := benchSeq rest
          (p.1, p.2 + 1)

/-- `stdBench` (src/main.go lines 162-202): display CPU information — on
failure return `nil` (src/main.go lines 167-169) — then create the temporary
result file (on failure return the error), then run the single-threaded
iterations followed by the multi-threaded iterations, returning the first
`spawnBench` error.  The returned pair is (returned error, number of
`spawnBench` invocations performed). -/
def stdBench (osq : Except String (List InfoStat)) (ncErr ntErr : Option String)
    (tmpErr : Option String) (single multi : List (Option String)) :
    Option String × Nat :=
  match displayCPU osq ncErr ntErr with
  | some _ => (none, 0)
  | none =>
      match tmpErr with
      | some e => (some e, 0)
      | none =>
          let s := benchSeq single
          match s.1 with
          | some e => (some e, s.2)
          | none =>
              let m := benchSeq multi
              (m.1, s.2 + m.2)

/-! ### The frequency probe (`measureFreq`) -/

/-- Events of `measureFreq` (src/main.go lines 300-319).  `CountASM` is the
dependent-instruction assembly loop; its definition lives outside the `main.go`
source, so it is embedded as an opaque event carrying the iteration-count
argument it was called with. -/
inductive FreqEv
  | countASM (n : Nat)
  | recordStart
  | recordEnd
deriving DecidableEq, Repr

namespace FreqEv

def isCount : FreqEv → Bool
  | .countASM _ => true
  | _ => false

def isCountWith (m : Nat) : FreqEv → Bool
  | .countASM n => n == m
  | _ => false

end FreqEv

/-- Trace of `measureFreq` (src/main.go lines 300-311): one warm-up
`CountASM(NFREQ)` call whose result and timing are discarded (it happens
before the start timestamp), then the timed `CountASM(NFREQ)` call between
the two timestamps.  Both calls pass the same constant `NFREQ`. -/
def measureFreqTrace (nfreq : Nat) : List FreqEv :=
  [FreqEv.countASM nfreq, FreqEv.recordStart, FreqEv.countASM nfreq, FreqEv.recordEnd]

/-- The value logged by `measureFreq` (src/main.go line 316):
`float64(NFREQ)/1024.0*ASMLoopCycles/dur/1.0e9` (GHz), embedded over exact
rationals; `dur` is the elapsed seconds of the timed pass and `cycles` the
calibration constant `ASMLoopCycles`. -/
def measureFreqGHz (nfreq : Nat) (cycles dur : ℚ) : ℚ :=
  (nfreq : ℚ) / 1024 * cycles / dur / 1000000000

/-! ### Helper lemmas about the trace -/

/-- Counting `p`-events in a prefix that ends right before a `q`-event: if the
trace splits as `A ++ B` where `A` is `q`-free and `B` is `p`-free, then any
prefix `pre` with `A ++ B = pre ++ x :: suf` and `q x` holds exactly the
`p`-events of `A`. -/
lemma countP_split {p q : Ev → Bool} :
    ∀ (A B pre suf : List Ev) (x : Ev),
      A ++ B = pre ++ x :: suf → q x = true →
      (∀ y ∈ A, q y = false) → (∀ y ∈ B, p y = false) →
      pre.countP p = A.countP p := by
  intro A
  induction A with
  | nil =>
      intro B pre suf x h _ _ hB
      simp only [List.nil_append] at h
      have hpre : ∀ y ∈ pre, ¬ p y = true := by
        intro y hy
        have : y ∈ B := by
          rw [h]
          exact List.mem_append_left _ hy
        simp [hB y this]
      simp [List.countP_eq_zero.mpr hpre]
  | cons a A ih =>
      intro B pre suf x h hq hA hB
      cases pre with
      | nil =>
          simp only [List.cons_append, List.nil_append] at h
          have hax : a = x := (List.cons.injEq _ _ _ _).mp h |>.1
          have : q a = false := hA a (List.mem_cons_self a A)
          rw [hax, hq] at this
          exact absurd this (by simp)
      | cons b pre =>
          simp only [List.cons_append] at h
          have hab : a = b := (List.cons.injEq _ _ _ _).mp h |>.1
          have htail : A ++ B = pre ++ x :: suf := (List.cons.injEq _ _ _ _).mp h |>.2
          have := ih B pre suf x htail hq (fun y hy => hA y (List.mem_cons_of_mem a hy)) hB
          simp [List.countP_cons, this, hab]

lemma mem_initPhase {W : Nat} {y : Ev} (h : y ∈ initPhase W) :
    ∃ i, y = Ev.spawnWorker i ∨ y = Ev.sendInit i := by
  unfold initPhase at h
  simp only [List.mem_flatMap, List.mem_range, List.mem_cons,
    List.mem_singleton, List.not_mem_nil, or_false] at h
  obtain ⟨i, _, hy⟩ := h
  exact ⟨i, hy⟩

lemma mem_barrierPhase {W : Nat} {y : Ev} (h : y ∈ barrierPhase W) :
    ∃ i, y = Ev.recvReady i := by
  unfold barrierPhase at h
  simp only [List.mem_map, List.mem_range] at h
  obtain ⟨i, _, hy⟩ := h
  exact ⟨i, hy.symm⟩

lemma mem_benchLoop {W : Nat} : ∀ {k : Nat} {y : Ev}, y ∈ benchLoop W k →
    y = Ev.enqueueStep ∨ ∃ b, y = Ev.pollDeadline b := by
  intro k
  induction k with
  | zero =>
      intro y h
      simp only [benchLoop, List.mem_singleton] at h
      exact Or.inr ⟨true, h⟩
  | succ k ih =>
      intro y h
      simp only [benchLoop, List.cons_append, List.mem_cons, List.mem_append] at h
      rcases h with h | h | h
      · exact Or.inr ⟨false, h⟩
      · exact Or.inl (List.eq_of_mem_replicate h)
      · exact ih h

lemma mem_shutdownPhase {W : Nat} {counts : List Nat} {y : Ev}
    (h : y ∈ shutdownPhase W counts) :
    (∃ i, y = Ev.enqueueExit i) ∨ (∃ c, y = Ev.recvCount c) ∨ y = Ev.recordEnd := by
  unfold shutdownPhase at h
  simp only [List.mem_append, List.mem_singleton, List.mem_map, List.mem_range] at h
  rcases h with (⟨i, _, hy⟩ | ⟨c, _, hy⟩) | h
  · exact Or.inl ⟨i, hy.symm⟩
  · exact Or.inr (Or.inl ⟨c, hy.symm⟩)
  · exact Or.inr (Or.inr h)

lemma countP_eq_zero_of_mem {p : Ev → Bool} {l : List Ev}
    (h : ∀ y ∈ l, p y = false) : l.countP p = 0 :=
  List.countP_eq_zero.mpr (fun y hy => by simp [h y hy])

lemma countP_ready_barrierPhase (W : Nat) :
    (barrierPhase W).countP Ev.isReady = W := by
  unfold barrierPhase
  rw [List.countP_map]
  simp [Function.comp_def, Ev.isReady]

lemma countP_exitCmd_range (W : Nat) :
    ((List.range W).map Ev.enqueueExit).countP Ev.isExitCmd = W := by
  rw [List.countP_map]
  simp [Function.comp_def, Ev.isExitCmd]

lemma countP_recvCount_map (counts : List Nat) :
    (counts.map Ev.recvCount).countP Ev.isRecvCount = counts.length := by
  rw [List.countP_map]
  simp [Function.comp_def, Ev.isRecvCount]

lemma countP_step_benchLoop (W : Nat) : ∀ k,
    (benchLoop W k).countP Ev.isStep = k * (W * 16) := by
  intro k
  induction k with
  | zero => simp [benchLoop, Ev.isStep]
  | succ k ih =>
      simp only [benchLoop, List.cons_append, List.countP_cons, List.countP_append, ih]
      rw [List.countP_eq_length_filter, List.filter_eq_self.mpr]
      · simp [List.length_replicate, Ev.isStep, Ev.isPoll, Nat.succ_mul]
        omega
      · intro a ha
        rw [List.eq_of_mem_replicate ha]
        rfl

lemma countP_poll_benchLoop (W : Nat) : ∀ k,
    (benchLoop W k).countP Ev.isPoll = k + 1 := by
  intro k
  induction k with
  | zero => simp [benchLoop, Ev.isPoll]
  | succ k ih =>
      simp only [benchLoop, List.cons_append, List.countP_cons, List.countP_append, ih]
      rw [countP_eq_zero_of_mem (p := Ev.isPoll)
        (fun y hy => by rw [List.eq_of_mem_replicate hy]; rfl)]
      simp [Ev.isPoll]

lemma countP_stopPoll_benchLoop (W : Nat) : ∀ k,
    (benchLoop W k).countP Ev.isStopPoll = 1 := by
  intro k
  induction k with
  | zero => simp [benchLoop, Ev.isStopPoll]
  | succ k ih =>
      simp only [benchLoop, List.cons_append, List.countP_cons, List.countP_append, ih]
      rw [countP_eq_zero_of_mem (p := Ev.isStopPoll)
        (fun y hy => by rw [List.eq_of_mem_replicate hy]; rfl)]
      simp [Ev.isStopPoll]

lemma benchLoop_eq_batches (W : Nat) : ∀ k,
    benchLoop W k =
      (List.replicate k (Ev.pollDeadline false :: List.replicate (W * 16) Ev.enqueueStep)).flatten
        ++ [Ev.pollDeadline true] := by
  intro k
  induction k with
  | zero => rfl
  | succ k ih =>
      simp only [benchLoop, List.replicate_succ, List.flatten_cons, List.cons_append, ih]
      simp [List.append_assoc]

lemma benchLoop_getLast (W k : Nat) :
    (benchLoop W k).getLast? = some (Ev.pollDeadline true) := by
  rw [benchLoop_eq_batches]
  exact List.getLast?_concat _

/-! Small closure lemmas: a predicate false on each kind of event occurring in
a trace segment is false on every member of the segment. -/

lemma no_pred_append {p : Ev → Bool} {l₁ l₂ : List Ev}
    (h₁ : ∀ y ∈ l₁, p y = false) (h₂ : ∀ y ∈ l₂, p y = false) :
    ∀ y ∈ l₁ ++ l₂, p y = false := by
  intro y hy
  rcases List.mem_append.mp hy with h | h
  exacts [h₁ y h, h₂ y h]

lemma no_pred_pair {p : Ev → Bool} {a b : Ev} (ha : p a = false) (hb : p b = false) :
    ∀ y ∈ [a, b], p y = false := by
  intro y hy
  simp only [List.mem_cons, List.not_mem_nil, or_false] at hy
  rcases hy with h | h <;> subst h <;> assumption

lemma no_pred_quad {p : Ev → Bool} {a b c d : Ev} (ha : p a = false) (hb : p b = false)
    (hc : p c = false) (hd : p d = false) :
    ∀ y ∈ [a, b, c, d], p y = false := by
  intro y hy
  simp only [List.mem_cons, List.not_mem_nil, or_false] at hy
  rcases hy with h | h | h | h <;> subst h <;> assumption

lemma no_pred_initPhase {p : Ev → Bool} (W : Nat)
    (h1 : ∀ i, p (Ev.spawnWorker i) = false) (h2 : ∀ i, p (Ev.sendInit i) = false) :
    ∀ y ∈ initPhase W, p y = false := by
  intro y hy
  obtain ⟨i, h | h⟩ := mem_initPhase hy <;> subst h
  exacts [h1 i, h2 i]

lemma no_pred_barrierPhase {p : Ev → Bool} (W : Nat)
    (h : ∀ i, p (Ev.recvReady i) = false) :
    ∀ y ∈ barrierPhase W, p y = false := by
  intro y hy
  obtain ⟨i, hi⟩ := mem_barrierPhase hy
  subst hi
  exact h i

lemma no_pred_benchLoop {p : Ev → Bool} (W k : Nat)
    (h1 : p Ev.enqueueStep = false) (h2 : ∀ b, p (Ev.pollDeadline b) = false) :
    ∀ y ∈ benchLoop W k, p y = false := by
  intro y hy
  rcases mem_benchLoop hy with h | ⟨b, h⟩ <;> subst h
  exacts [h1, h2 b]

lemma no_pred_exitsMap {p : Ev → Bool} (W : Nat)
    (h : ∀ i, p (Ev.enqueueExit i) = false) :
    ∀ y ∈ (List.range W).map Ev.enqueueExit, p y = false := by
  intro y hy
  simp only [List.mem_map, List.mem_range] at hy
  obtain ⟨i, _, hi⟩ := hy
  subst hi
  exact h i

lemma no_pred_recvMap {p : Ev → Bool} (counts : List Nat)
    (h : ∀ c, p (Ev.recvCount c) = false) :
    ∀ y ∈ counts.map Ev.recvCount, p y = false := by
  intro y hy
  simp only [List.mem_map] at hy
  obtain ⟨c, _, hc⟩ := hy
  subst hc
  exact h c

lemma no_pred_shutdownPhase {p : Ev → Bool} (W : Nat) (counts : List Nat)
    (h1 : ∀ i, p (Ev.enqueueExit i) = false) (h2 : ∀ c, p (Ev.recvCount c) = false)
    (h3 : p Ev.recordEnd = false) :
    ∀ y ∈ shutdownPhase W counts, p y = false := by
  intro y hy
  rcases mem_shutdownPhase hy with ⟨i, h⟩ | ⟨c, h⟩ | h <;> subst h
  exacts [h1 i, h2 c, h3]

/-! Decompositions of the `runBench` trace around its synchronization points,
and the readiness-signal counts. -/

lemma runBenchTrace_split_barrier (W D k : Nat) (counts : List Nat) :
    runBenchTrace W D k counts =
      (initPhase W ++ barrierPhase W ++ [Ev.runGC, Ev.runGC]) ++
      ([Ev.recordStart, Ev.armTimer D] ++ (benchLoop W k ++ shutdownPhase W counts)) := by
  simp [runBenchTrace, List.append_assoc]

lemma countP_ready_front (W : Nat) :
    (initPhase W ++ barrierPhase W ++ [Ev.runGC, Ev.runGC]).countP Ev.isReady = W := by
  rw [List.countP_append, List.countP_append,
    countP_eq_zero_of_mem (no_pred_initPhase W (fun _ => rfl) (fun _ => rfl)),
    countP_ready_barrierPhase,
    countP_eq_zero_of_mem (no_pred_pair rfl rfl)]
  omega

lemma countP_ready_trace (W D k : Nat) (counts : List Nat) :
    (runBenchTrace W D k counts).countP Ev.isReady = W := by
  rw [runBenchTrace_split_barrier, List.countP_append, countP_ready_front,
    countP_eq_zero_of_mem (no_pred_append (no_pred_pair rfl rfl)
      (no_pred_append (no_pred_benchLoop W k rfl (fun _ => rfl))
        (no_pred_shutdownPhase W counts (fun _ => rfl) (fun _ => rfl) rfl)))]
  omega

/-- **C1.** In `runBench` (src/main.go lines 90-111), before any `OpStep`
command is enqueued into the work queue, and before the start timestamp is
recorded, the orchestrator has received exactly `workerCount` readiness
signals on the result channel: for every decomposition of the orchestrator
trace at a step-enqueue or at the start-timestamp event, the prefix contains
exactly `W` readiness receptions, and the whole trace contains exactly `W` of
them (one per spawned worker).  Since a worker can only process a Step
command after the orchestrator has enqueued it, no worker begins processing
Step commands before this barrier completes. -/
theorem C1_init_barrier (W D k : Nat) (counts : List Nat) (pre suf : List Ev) (x : Ev)
    (hsplit : runBenchTrace W D k counts = pre ++ x :: suf)
    (hx : Ev.isStep x = true ∨ x = Ev.recordStart) :
    pre.countP Ev.isReady = W ∧ (runBenchTrace W D k counts).countP Ev.isReady = W := by
  refine ⟨?_, countP_ready_trace W D k counts⟩
  have heq : (initPhase W ++ barrierPhase W ++ [Ev.runGC, Ev.runGC]) ++
      ([Ev.recordStart, Ev.armTimer D] ++ (benchLoop W k ++ shutdownPhase W counts)) =
      pre ++ x :: suf := (runBenchTrace_split_barrier W D k counts).symm.trans hsplit
  have hq : (Ev.isStep x || Ev.isStartEv x) = true := by
    rcases hx with h | h
    · rw [h]
      rfl
    · subst h
      rfl
  have hA : ∀ y ∈ initPhase W ++ barrierPhase W ++ [Ev.runGC, Ev.runGC],
      (Ev.isStep y || Ev.isStartEv y) = false :=
    no_pred_append (no_pred_append (no_pred_initPhase W (fun _ => rfl) (fun _ => rfl))
      (no_pred_barrierPhase W (fun _ => rfl))) (no_pred_pair rfl rfl)
  have hB : ∀ y ∈ [Ev.recordStart, Ev.armTimer D] ++ (benchLoop W k ++ shutdownPhase W counts),
      Ev.isReady y = false :=
    no_pred_append (no_pred_pair rfl rfl)
      (no_pred_append (no_pred_benchLoop W k rfl (fun _ => rfl))
        (no_pred_shutdownPhase W counts (fun _ => rfl) (fun _ => rfl) rfl))
  have hc := countP_split (p := Ev.isReady)
    (q := fun y => Ev.isStep y || Ev.isStartEv y) _ _ pre suf x heq hq hA hB
  rw [hc, countP_ready_front]

lemma runBenchNb_eq_sum (counts : List Nat) : runBenchNb counts = counts.sum := by
  unfold runBenchNb
  simp [List.sum_eq_foldl]

lemma filter_eq_nil_of_mem {p : Ev → Bool} {l : List Ev}
    (h : ∀ y ∈ l, p y = false) : l.filter p = [] :=
  List.filter_eq_nil_iff.mpr (fun y hy => by simp [h y hy])

lemma no_stopPoll_front (W D : Nat) :
    ∀ y ∈ initPhase W ++ barrierPhase W ++
      [Ev.runGC, Ev.runGC, Ev.recordStart, Ev.armTimer D], Ev.isStopPoll y = false :=
  no_pred_append (no_pred_append (no_pred_initPhase W (fun _ => rfl) (fun _ => rfl))
    (no_pred_barrierPhase W (fun _ => rfl))) (no_pred_quad rfl rfl rfl rfl)

lemma no_recvCount_front (W D : Nat) :
    ∀ y ∈ initPhase W ++ barrierPhase W ++
      [Ev.runGC, Ev.runGC, Ev.recordStart, Ev.armTimer D], Ev.isRecvCount y = false :=
  no_pred_append (no_pred_append (no_pred_initPhase W (fun _ => rfl) (fun _ => rfl))
    (no_pred_barrierPhase W (fun _ => rfl))) (no_pred_quad rfl rfl rfl rfl)

lemma no_exitCmd_front (W D : Nat) :
    ∀ y ∈ initPhase W ++ barrierPhase W ++
      [Ev.runGC, Ev.runGC, Ev.recordStart, Ev.armTimer D], Ev.isExitCmd y = false :=
  no_pred_append (no_pred_append (no_pred_initPhase W (fun _ => rfl) (fun _ => rfl))
    (no_pred_barrierPhase W (fun _ => rfl))) (no_pred_quad rfl rfl rfl rfl)

lemma countP_stopPoll_trace (W D k : Nat) (counts : List Nat) :
    (runBenchTrace W D k counts).countP Ev.isStopPoll = 1 := by
  unfold runBenchTrace
  rw [List.countP_append, List.countP_append,
    countP_eq_zero_of_mem (no_stopPoll_front W D),
    countP_stopPoll_benchLoop,
    countP_eq_zero_of_mem (no_pred_shutdownPhase W counts (fun _ => rfl) (fun _ => rfl) rfl)]

lemma countP_recvCount_trace (W D k : Nat) (counts : List Nat) :
    (runBenchTrace W D k counts).countP Ev.isRecvCount = counts.length := by
  unfold runBenchTrace shutdownPhase
  have h1 : (initPhase W).countP Ev.isRecvCount = 0 :=
    countP_eq_zero_of_mem (no_pred_initPhase W (fun _ => rfl) (fun _ => rfl))
  have h2 : (barrierPhase W).countP Ev.isRecvCount = 0 :=
    countP_eq_zero_of_mem (no_pred_barrierPhase W (fun _ => rfl))
  have h3 : (benchLoop W k).countP Ev.isRecvCount = 0 :=
    countP_eq_zero_of_mem (no_pred_benchLoop W k rfl (fun _ => rfl))
  have h4 : ((List.range W).map Ev.enqueueExit).countP Ev.isRecvCount = 0 :=
    countP_eq_zero_of_mem (no_pred_exitsMap W (fun _ => rfl))
  simp [List.countP_append, h1, h2, h3, h4, Function.comp_def, Ev.isRecvCount]

lemma countP_exitCmd_trace (W D k : Nat) (counts : List Nat) :
    (runBenchTrace W D k counts).countP Ev.isExitCmd = W := by
  unfold runBenchTrace shutdownPhase
  have h1 : (initPhase W).countP Ev.isExitCmd = 0 :=
    countP_eq_zero_of_mem (no_pred_initPhase W (fun _ => rfl) (fun _ => rfl))
  have h2 : (barrierPhase W).countP Ev.isExitCmd = 0 :=
    countP_eq_zero_of_mem (no_pred_barrierPhase W (fun _ => rfl))
  have h3 : (benchLoop W k).countP Ev.isExitCmd = 0 :=
    countP_eq_zero_of_mem (no_pred_benchLoop W k rfl (fun _ => rfl))
  have h4 : (counts.map Ev.recvCount).countP Ev.isExitCmd = 0 :=
    countP_eq_zero_of_mem (no_pred_recvMap counts (fun _ => rfl))
  simp [List.countP_append, h1, h2, h3, h4, Function.comp_def, Ev.isExitCmd]

lemma runBenchTrace_getLast (W D k : Nat) (counts : List Nat) :
    (runBenchTrace W D k counts).getLast? = some Ev.recordEnd := by
  unfold runBenchTrace shutdownPhase
  rw [← List.append_assoc]
  exact List.getLast?_concat _

lemma filter_recvCount_trace (W D k : Nat) (counts : List Nat) :
    (runBenchTrace W D k counts).filter Ev.isRecvCount = counts.map Ev.recvCount := by
  unfold runBenchTrace shutdownPhase
  have h1 : (initPhase W).filter Ev.isRecvCount = [] :=
    filter_eq_nil_of_mem (no_pred_initPhase W (fun _ => rfl) (fun _ => rfl))
  have h2 : (barrierPhase W).filter Ev.isRecvCount = [] :=
    filter_eq_nil_of_mem (no_pred_barrierPhase W (fun _ => rfl))
  have h3 : (benchLoop W k).filter Ev.isRecvCount = [] :=
    filter_eq_nil_of_mem (no_pred_benchLoop W k rfl (fun _ => rfl))
  have h4 : ((List.range W).map Ev.enqueueExit).filter Ev.isRecvCount = [] :=
    filter_eq_nil_of_mem (no_pred_exitsMap W (fun _ => rfl))
  have h5 : (counts.map Ev.recvCount).filter Ev.isRecvCount = counts.map Ev.recvCount := by
    rw [List.filter_eq_self]
    intro y hy
    simp only [List.mem_map] at hy
    obtain ⟨c, _, hc⟩ := hy
    subst hc
    rfl
  simp [List.filter_append, h1, h2, h3, h4, h5, Ev.isRecvCount]

lemma no_pred_single {p : Ev → Bool} {a : Ev} (ha : p a = false) : ∀ y ∈ [a], p y = false := by
  intro y hy
  simp only [List.mem_singleton] at hy
  subst hy
  exact ha

lemma no_endEv_front (W D : Nat) :
    ∀ y ∈ initPhase W ++ barrierPhase W ++
      [Ev.runGC, Ev.runGC, Ev.recordStart, Ev.armTimer D], Ev.isEndEv y = false :=
  no_pred_append (no_pred_append (no_pred_initPhase W (fun _ => rfl) (fun _ => rfl))
    (no_pred_barrierPhase W (fun _ => rfl))) (no_pred_quad rfl rfl rfl rfl)

lemma runBenchTrace_split_collect (W D k : Nat) (counts : List Nat) :
    runBenchTrace W D k counts =
      (((initPhase W ++ barrierPhase W ++ [Ev.runGC, Ev.runGC, Ev.recordStart, Ev.armTimer D]) ++
        benchLoop W k) ++ (List.range W).map Ev.enqueueExit) ++
      (counts.map Ev.recvCount ++ [Ev.recordEnd]) := by
  simp [runBenchTrace, shutdownPhase, List.append_assoc]

lemma runBenchTrace_split_end (W D k : Nat) (counts : List Nat) :
    runBenchTrace W D k counts =
      (((initPhase W ++ barrierPhase W ++ [Ev.runGC, Ev.runGC, Ev.recordStart, Ev.armTimer D]) ++
        benchLoop W k) ++ ((List.range W).map Ev.enqueueExit ++ counts.map Ev.recvCount)) ++
      [Ev.recordEnd] := by
  simp [runBenchTrace, shutdownPhase, List.append_assoc]

lemma countP_exitCmd_preCollect (W D k : Nat) :
    ((((initPhase W ++ barrierPhase W ++ [Ev.runGC, Ev.runGC, Ev.recordStart, Ev.armTimer D]) ++
      benchLoop W k) ++ (List.range W).map Ev.enqueueExit)).countP Ev.isExitCmd = W := by
  have h1 : (initPhase W).countP Ev.isExitCmd = 0 :=
    countP_eq_zero_of_mem (no_pred_initPhase W (fun _ => rfl) (fun _ => rfl))
  have h2 : (barrierPhase W).countP Ev.isExitCmd = 0 :=
    countP_eq_zero_of_mem (no_pred_barrierPhase W (fun _ => rfl))
  have h3 : (benchLoop W k).countP Ev.isExitCmd = 0 :=
    countP_eq_zero_of_mem (no_pred_benchLoop W k rfl (fun _ => rfl))
  simp [List.countP_append, h1, h2, h3, Function.comp_def, Ev.isExitCmd]

lemma countP_stopPoll_preCollect (W D k : Nat) :
    ((((initPhase W ++ barrierPhase W ++ [Ev.runGC, Ev.runGC, Ev.recordStart, Ev.armTimer D]) ++
      benchLoop W k) ++ (List.range W).map Ev.enqueueExit)).countP Ev.isStopPoll = 1 := by
  have h1 : (initPhase W).countP Ev.isStopPoll = 0 :=
    countP_eq_zero_of_mem (no_pred_initPhase W (fun _ => rfl) (fun _ => rfl))
  have h2 : (barrierPhase W).countP Ev.isStopPoll = 0 :=
    countP_eq_zero_of_mem (no_pred_barrierPhase W (fun _ => rfl))
  have h3 := countP_stopPoll_benchLoop W k
  simp [List.countP_append, h1, h2, h3, Function.comp_def, Ev.isStopPoll]

lemma countP_recvCount_preEnd (W D k : Nat) (counts : List Nat) :
    (((initPhase W ++ barrierPhase W ++ [Ev.runGC, Ev.runGC, Ev.recordStart, Ev.armTimer D]) ++
      benchLoop W k) ++ ((List.range W).map Ev.enqueueExit ++ counts.map Ev.recvCount)).countP
      Ev.isRecvCount = counts.length := by
  have h1 : (initPhase W).countP Ev.isRecvCount = 0 :=
    countP_eq_zero_of_mem (no_pred_initPhase W (fun _ => rfl) (fun _ => rfl))
  have h2 : (barrierPhase W).countP Ev.isRecvCount = 0 :=
    countP_eq_zero_of_mem (no_pred_barrierPhase W (fun _ => rfl))
  have h3 : (benchLoop W k).countP Ev.isRecvCount = 0 :=
    countP_eq_zero_of_mem (no_pred_benchLoop W k rfl (fun _ => rfl))
  simp [List.countP_append, h1, h2, h3, Function.comp_def, Ev.isRecvCount]

/-- **C2.** The throughput reported by `runBench` (src/main.go lines 135-144)
equals the sum of the `workerCount` per-worker final counts received on the
result channel, multiplied by `1e9` and divided by the elapsed nanoseconds.
No per-worker count is lost or duplicated: the fold `nb += <-output` computes
exactly the sum of the received list, and the trace contains exactly one
reception event per count, in order. -/
theorem C2_throughput_formula (W D k : Nat) (counts : List Nat) (ns : ℚ)
    (hlen : counts.length = W) :
    runBenchRes counts ns = (counts.sum : ℚ) * 1000000000 / ns
    ∧ (runBenchTrace W D k counts).filter Ev.isRecvCount = counts.map Ev.recvCount
    ∧ (runBenchTrace W D k counts).countP Ev.isRecvCount = W := by
  refine ⟨?_, filter_recvCount_trace W D k counts, ?_⟩
  · unfold runBenchRes throughput
    rw [runBenchNb_eq_sum]
  · rw [countP_recvCount_trace, hlen]

/-- Witness for C2 at `W = 2`, `k = 1`, `counts = [3, 4]`, `ns = 2`. -/
theorem C2_throughput_formula_witness :
    runBenchRes [3, 4] 2 = (([3, 4] : List Nat).sum : ℚ) * 1000000000 / 2
    ∧ (runBenchTrace 2 0 1 [3, 4]).filter Ev.isRecvCount =
        ([3, 4] : List Nat).map Ev.recvCount
    ∧ (runBenchTrace 2 0 1 [3, 4]).countP Ev.isRecvCount = 2 :=
  C2_throughput_formula 2 0 1 [3, 4] 2 (by decide)

/-- **C3.** For every worker count `W ≥ 1`, duration `D ≥ 0` and scheduler
behaviour (`k` loop iterations before the deadline is observed), the trace of
`runBench` (src/main.go lines 79-159) is a finite list in which the barrier
completes (`W` readiness signals), the load loop exits after the deadline
fires (exactly one fired poll), shutdown finishes (`W` final counts received
and the end-timestamp is the last event) — and the computed throughput is
non-negative. -/
theorem C3_terminates_nonneg (W D k : Nat) (counts : List Nat) (ns : ℚ)
    (hW : 1 ≤ W) (hns : 0 ≤ ns) (hlen : counts.length = W) :
    0 ≤ runBenchRes counts ns
    ∧ (runBenchTrace W D k counts).countP Ev.isReady = W
    ∧ (runBenchTrace W D k counts).countP Ev.isStopPoll = 1
    ∧ (runBenchTrace W D k counts).countP Ev.isRecvCount = W
    ∧ (runBenchTrace W D k counts).getLast? = some Ev.recordEnd := by
  refine ⟨?_, countP_ready_trace W D k counts, countP_stopPoll_trace W D k counts,
    ?_, runBenchTrace_getLast W D k counts⟩
  · unfold runBenchRes throughput
    apply div_nonneg _ hns
    positivity
  · rw [countP_recvCount_trace, hlen]

/-- Witness for C3 at `W = 1`, `D = 0`, `k = 0`, `counts = [0]`, `ns = 5`. -/
theorem C3_terminates_nonneg_witness :
    0 ≤ runBenchRes [0] 5
    ∧ (runBenchTrace 1 0 0 [0]).countP Ev.isReady = 1
    ∧ (runBenchTrace 1 0 0 [0]).countP Ev.isStopPoll = 1
    ∧ (runBenchTrace 1 0 0 [0]).countP Ev.isRecvCount = 1
    ∧ (runBenchTrace 1 0 0 [0]).getLast? = some Ev.recordEnd :=
  C3_terminates_nonneg 1 0 0 [0] 5 (by decide) (by decide) (by decide)

/-- **C4.** The load-generation loop of `runBench` (src/main.go lines
118-129): the loop is exactly `k` batches, each consisting of one non-fired
non-blocking deadline poll followed by exactly `W * 16` enqueued Step
commands, followed by the single fired poll on which the loop exits;
consequently it enqueues `k * (W * 16)` Step commands, makes `k + 1` polls
(one per batch plus the final one, not one per Step), observes the deadline
exactly once, and the fired poll is the last action of the loop. -/
theorem C4_loop_batches (W k : Nat) :
    benchLoop W k =
      (List.replicate k (Ev.pollDeadline false :: List.replicate (W * 16) Ev.enqueueStep)).flatten
        ++ [Ev.pollDeadline true]
    ∧ (benchLoop W k).countP Ev.isStep = k * (W * 16)
    ∧ (benchLoop W k).countP Ev.isPoll = k + 1
    ∧ (benchLoop W k).countP Ev.isStopPoll = 1
    ∧ (benchLoop W k).getLast? = some (Ev.pollDeadline true) :=
  ⟨benchLoop_eq_batches W k, countP_step_benchLoop W k, countP_poll_benchLoop W k,
    countP_stopPoll_benchLoop W k, benchLoop_getLast W k⟩

/-- **C5.** After the load loop of `runBench` exits (src/main.go lines
131-139), exactly one `OpExit` is enqueued per worker, then exactly
`workerCount` final counts are collected from the result channel and summed,
all before the end timestamp: the trace has exactly `W` Exit-enqueues; at any
count-reception the loop has already observed the deadline and all `W`
Exit-enqueues have happened; at the end-timestamp all `W` counts have been
received; and the aggregate is the exact sum of the received counts. -/
theorem C5_shutdown_aggregation (W D k : Nat) (counts : List Nat) (pre suf : List Ev) (x : Ev)
    (hlen : counts.length = W)
    (hsplit : runBenchTrace W D k counts = pre ++ x :: suf) :
    (runBenchTrace W D k counts).countP Ev.isExitCmd = W
    ∧ runBenchNb counts = counts.sum
    ∧ (Ev.isRecvCount x = true →
        pre.countP Ev.isExitCmd = W ∧ pre.countP Ev.isStopPoll = 1)
    ∧ (x = Ev.recordEnd → pre.countP Ev.isRecvCount = W) := by
  refine ⟨countP_exitCmd_trace W D k counts, runBenchNb_eq_sum counts, ?_, ?_⟩
  · intro hx
    have heq := (runBenchTrace_split_collect W D k counts).symm.trans hsplit
    have hAq : ∀ y ∈ ((initPhase W ++ barrierPhase W ++
        [Ev.runGC, Ev.runGC, Ev.recordStart, Ev.armTimer D]) ++ benchLoop W k) ++
        (List.range W).map Ev.enqueueExit, Ev.isRecvCount y = false :=
      no_pred_append (no_pred_append (no_recvCount_front W D)
        (no_pred_benchLoop W k rfl (fun _ => rfl))) (no_pred_exitsMap W (fun _ => rfl))
    constructor
    · have hB : ∀ y ∈ counts.map Ev.recvCount ++ [Ev.recordEnd], Ev.isExitCmd y = false :=
        no_pred_append (no_pred_recvMap counts (fun _ => rfl)) (no_pred_single rfl)
      have hc := countP_split (p := Ev.isExitCmd) (q := Ev.isRecvCount)
        _ _ pre suf x heq hx hAq hB
      rw [hc, countP_exitCmd_preCollect]
    · have hB : ∀ y ∈ counts.map Ev.recvCount ++ [Ev.recordEnd], Ev.isStopPoll y = false :=
        no_pred_append (no_pred_recvMap counts (fun _ => rfl)) (no_pred_single rfl)
      have hc := countP_split (p := Ev.isStopPoll) (q := Ev.isRecvCount)
        _ _ pre suf x heq hx hAq hB
      rw [hc, countP_stopPoll_preCollect]
  · intro hx
    subst hx
    have heq := (runBenchTrace_split_end W D k counts).symm.trans hsplit
    have hAq : ∀ y ∈ ((initPhase W ++ barrierPhase W ++
        [Ev.runGC, Ev.runGC, Ev.recordStart, Ev.armTimer D]) ++ benchLoop W k) ++
        ((List.range W).map Ev.enqueueExit ++ counts.map Ev.recvCount),
        Ev.isEndEv y = false :=
      no_pred_append (no_pred_append (no_endEv_front W D)
        (no_pred_benchLoop W k rfl (fun _ => rfl)))
        (no_pred_append (no_pred_exitsMap W (fun _ => rfl))
          (no_pred_recvMap counts (fun _ => rfl)))
    have hB : ∀ y ∈ [Ev.recordEnd], Ev.isRecvCount y = false := no_pred_single rfl
    have hc := countP_split (p := Ev.isRecvCount) (q := Ev.isEndEv)
      _ _ pre suf Ev.recordEnd heq rfl hAq hB
    rw [hc, countP_recvCount_preEnd, hlen]

/-- Witness for C5 at `W = 1`, `D = 0`, `k = 0`, `counts = [3]`, split at the
end-timestamp event. -/
theorem C5_shutdown_aggregation_witness :
    (runBenchTrace 1 0 0 [3]).countP Ev.isExitCmd = 1
    ∧ runBenchNb [3] = ([3] : List Nat).sum
    ∧ (Ev.isRecvCount Ev.recordEnd = true →
        ([Ev.spawnWorker 0, Ev.sendInit 0, Ev.recvReady 0, Ev.runGC, Ev.runGC, Ev.recordStart,
          Ev.armTimer 0, Ev.pollDeadline true, Ev.enqueueExit 0,
          Ev.recvCount 3] : List Ev).countP Ev.isExitCmd = 1
        ∧ ([Ev.spawnWorker 0, Ev.sendInit 0, Ev.recvReady 0, Ev.runGC, Ev.runGC, Ev.recordStart,
          Ev.armTimer 0, Ev.pollDeadline true, Ev.enqueueExit 0,
          Ev.recvCount 3] : List Ev).countP Ev.isStopPoll = 1)
    ∧ (Ev.recordEnd = Ev.recordEnd →
        ([Ev.spawnWorker 0, Ev.sendInit 0, Ev.recvReady 0, Ev.runGC, Ev.runGC, Ev.recordStart,
          Ev.armTimer 0, Ev.pollDeadline true, Ev.enqueueExit 0,
          Ev.recvCount 3] : List Ev).countP Ev.isRecvCount = 1) :=
  C5_shutdown_aggregation 1 0 0 [3]
    [Ev.spawnWorker 0, Ev.sendInit 0, Ev.recvReady 0, Ev.runGC, Ev.runGC, Ev.recordStart,
      Ev.armTimer 0, Ev.pollDeadline true, Ev.enqueueExit 0, Ev.recvCount 3]
    [] Ev.recordEnd (by decide) (by decide)

/-- Witness for C1 at `W = 1`, `D = 0`, `k = 0`, `counts = [2]`, split at the
start-timestamp event. -/
theorem C1_init_barrier_witness :
    ([Ev.spawnWorker 0, Ev.sendInit 0, Ev.recvReady 0, Ev.runGC,
      Ev.runGC] : List Ev).countP Ev.isReady = 1
    ∧ (runBenchTrace 1 0 0 [2]).countP Ev.isReady = 1 :=
  C1_init_barrier 1 0 0 [2]
    [Ev.spawnWorker 0, Ev.sendInit 0, Ev.recvReady 0, Ev.runGC, Ev.runGC]
    [Ev.armTimer 0, Ev.pollDeadline true, Ev.enqueueExit 0, Ev.recvCount 2, Ev.recordEnd]
    Ev.recordStart (by decide) (Or.inr rfl)

/-- **C6.** `measureFreq` (src/main.go lines 300-319) executes the
dependent-instruction loop twice with the same fixed iteration constant: the
trace contains exactly two `CountASM` calls, both with argument `NFREQ`, the
first of which is the warm-up that precedes the start timestamp (so its
timing is outside the measured window and its result unused), and the second
lies between the two timestamps; and the reported value equals
`NFREQ / 1024 × ASMLoopCycles / elapsed_seconds` scaled to GHz. -/
theorem C6_freq_warmup_and_formula (nfreq : Nat) (cycles dur : ℚ) :
    (measureFreqTrace nfreq).countP FreqEv.isCount = 2
    ∧ (measureFreqTrace nfreq).countP (FreqEv.isCountWith nfreq) = 2
    ∧ (measureFreqTrace nfreq).head? = some (FreqEv.countASM nfreq)
    ∧ (measureFreqTrace nfreq).drop 1 =
        [FreqEv.recordStart, FreqEv.countASM nfreq, FreqEv.recordEnd]
    ∧ measureFreqGHz nfreq cycles dur =
        (nfreq : ℚ) * cycles / (1024 * dur * 1000000000) := by
  refine ⟨?_, ?_, rfl, rfl, ?_⟩
  · simp [measureFreqTrace, List.countP_cons, FreqEv.isCount]
  · simp [measureFreqTrace, List.countP_cons, FreqEv.isCountWith]
  · unfold measureFreqGHz
    rw [div_mul_eq_mul_div, div_div, div_div, mul_assoc]

/-- **C7.** A failure of the result-file append in `runBench` (src/main.go
lines 150-155) is recoverable: with a write error the report still prints the
same two lines (CPU model name and throughput), the returned error is still
`nil`, and the only difference from the no-failure run is the logged message.
The measurement itself (`res`) is an input computed before the write is even
attempted, so it is unaffected by construction. -/
theorem C7_write_failure_recoverable (osq : Except String (List InfoStat)) (res : ℚ)
    (resFile : Option String) (e v : String)
    (hv : displayCPUVendorName osq = some v) :
    runBenchFinish false osq res resFile (some e) =
      some { printed := [OutLine.vendor v, OutLine.value res]
             loggedWriteFailure := resFile.isSome
             ret := none }
    ∧ (runBenchFinish false osq res resFile (some e)).map BenchReport.printed =
        (runBenchFinish false osq res resFile none).map BenchReport.printed
    ∧ (runBenchFinish false osq res resFile (some e)).map BenchReport.ret =
        (runBenchFinish false osq res resFile none).map BenchReport.ret := by
  refine ⟨?_, ?_, ?_⟩ <;> simp [runBenchFinish, hv]

/-- Witness for C7: a successful one-CPU query, `res = 1`, a configured
result file, and a failing write. -/
theorem C7_write_failure_recoverable_witness :
    runBenchFinish false (Except.ok [⟨"GenuineIntel", "TestCPU"⟩]) 1 (some "f") (some "werr") =
      some { printed := [OutLine.vendor "TestCPU", OutLine.value 1]
             loggedWriteFailure := (some "f" : Option String).isSome
             ret := none }
    ∧ (runBenchFinish false (Except.ok [⟨"GenuineIntel", "TestCPU"⟩]) 1
          (some "f") (some "werr")).map BenchReport.printed =
        (runBenchFinish false (Except.ok [⟨"GenuineIntel", "TestCPU"⟩]) 1
          (some "f") none).map BenchReport.printed
    ∧ (runBenchFinish false (Except.ok [⟨"GenuineIntel", "TestCPU"⟩]) 1
          (some "f") (some "werr")).map BenchReport.ret =
        (runBenchFinish false (Except.ok [⟨"GenuineIntel", "TestCPU"⟩]) 1
          (some "f") none).map BenchReport.ret :=
  C7_write_failure_recoverable (Except.ok [⟨"GenuineIntel", "TestCPU"⟩]) 1
    (some "f") "werr" "TestCPU" rfl

lemma benchSeq_first_error (e : String) (rest : List (Option String)) :
    ∀ pre : List (Option String), (∀ x ∈ pre, x = none) →
      benchSeq (pre ++ some e :: rest) = (some e, pre.length + 1) := by
  intro pre
  induction pre with
  | nil => intro _; rfl
  | cons a pre ih =>
      intro h
      have ha : a = none := h a (List.mem_cons_self a pre)
      subst ha
      have htail := ih (fun x hx => h x (List.mem_cons_of_mem none hx))
      simp only [List.cons_append, benchSeq, List.append_eq, htail, List.length_cons]

/-- **C8.** A subprocess-run failure in `spawnBench` (src/main.go lines
226-228) is returned to the caller, and `stdBench` (lines 182-196) treats it
as fatal for the whole run: if the iterations before position `pre.length`
succeed and that iteration's `spawnBench` fails with `e`, `stdBench` returns
`e` having performed exactly `pre.length + 1` spawn invocations — the failing
iteration is not retried and no further iteration (in particular none of the
multi-threaded pass) is attempted. -/
theorem C8_spawn_failure_fatal (e : String) (l : List InfoStat)
    (pre rest multi : List (Option String)) (hpre : ∀ x ∈ pre, x = none) :
    spawnBench none (some e) = some e
    ∧ stdBench (Except.ok l) none none none (pre ++ some e :: rest) multi =
        (some e, pre.length + 1) := by
  refine ⟨rfl, ?_⟩
  unfold stdBench displayCPU getCPUInfo
  rw [benchSeq_first_error e rest pre hpre]

/-- Witness for C8: one successful single-threaded iteration, then a failing
spawn; the run stops after 2 spawn invocations with the error. -/
theorem C8_spawn_failure_fatal_witness :
    spawnBench none (some "spawn failed") = some "spawn failed"
    ∧ stdBench (Except.ok []) none none none
        ([none] ++ some "spawn failed" :: [none]) [none, none] =
        (some "spawn failed", ([none] : List (Option String)).length + 1) :=
  C8_spawn_failure_fatal "spawn failed" [] [none] [none] [none, none] (by decide)

/-- **C9** (behaviour of the code at the failing input).  When the
CPU-information query fails in repeated-benchmark mode, `displayCPU`
propagates the error, but `stdBench` (src/main.go lines 167-169) returns
`nil` and performs zero benchmark iterations: the run is reported as a
success with the error swallowed, not treated as fatal. -/
theorem C9_cpu_failure_swallowed (e : String) (ncErr ntErr tmpErr : Option String)
    (single multi : List (Option String)) :
    displayCPU (Except.error e) ncErr ntErr = some e
    ∧ stdBench (Except.error e) ncErr ntErr tmpErr single multi = (none, 0) :=
  ⟨rfl, rfl⟩

/-- **C10.** `displayCPUVendorName` (src/main.go lines 327-330) discards the
error of `getCPUInfo` and unconditionally indexes the first element of the
slice: whenever the query fails (the slice is then `nil`) or returns an empty
slice, the access is out of bounds — a runtime panic, embedded as `none` —
and in single-iteration non-debug mode the report printing of `runBench`
(lines 146-149) hits that panic instead of producing a result. -/
theorem C10_vendor_name_panic (osq : Except String (List InfoStat)) (res : ℚ)
    (resFile writeErr : Option String)
    (h : (∃ e, osq = Except.error e) ∨ osq = Except.ok ([] : List InfoStat)) :
    displayCPUVendorName osq = none
    ∧ runBenchFinish false osq res resFile writeErr = none := by
  rcases h with ⟨e, he⟩ | he <;> subst he <;> exact ⟨rfl, rfl⟩

/-- Witness for C10: an empty CPU-info slice. -/
theorem C10_vendor_name_panic_witness :
    displayCPUVendorName (Except.ok ([] : List InfoStat)) = none
    ∧ runBenchFinish false (Except.ok ([] : List InfoStat)) 1 (some "f") none = none :=
  C10_vendor_name_panic (Except.ok []) 1 (some "f") none (Or.inr rfl)

end Cpubench
